import Mathlib

/-!
Formal model of the pv-forecast multi-source weather ingestion and
feature-engineering pipeline.

The numeric domain is ℚ (exact rationals) standing in for the float values of
the implementation.  External math-library functions (sine, cosine, clear-sky
model, solar position, calendar decomposition) are passed in as explicit
function parameters, so every definition stays executable and the pipeline is
a pure function of its inputs.
-/

namespace PVForecast

/-- Modelled from the spec: the Erbs diffuse-fraction relation (spec §4.1.1).
The implementation function `estimate_dhi` (changelog v0.4.2, signature
`estimate_dhi(ghi, sun_elevation, timestamp)`) is not part of the published
sources, so the piecewise model is taken from the spec's words: for
`kt ≤ 0.22` the fraction is `1 − 0.09·kt`, for `0.22 < kt ≤ 0.80` it is a
cubic polynomial in `kt`, and for `kt > 0.80` it is the constant `0.165`.
The middle branch's polynomial is an explicit parameter because the spec
fixes only that it is "a cubic polynomial in kt". -/
def erbs_diffuse_fraction (cubic : ℚ → ℚ) (kt : ℚ) : ℚ :=
  if kt ≤ 0.22 then 1 - 0.09 * kt
  else if kt ≤ 0.80 then cubic kt
  else 0.165

/-- Modelled from the spec: `dhi = diffuse_fraction × ghi` (spec §4.1.1),
with the clearness index `kt = ghi / extraterrestrial_irradiance` supplied
by the caller. -/
def estimate_dhi (cubic : ℚ → ℚ) (ghi kt : ℚ) : ℚ :=
  erbs_diffuse_fraction cubic kt * ghi

/-- The normalized irradiance triple carried by a weather record. -/
structure NormalizedIrradiance where
  ghi : ℚ
  dhi : ℚ
  dni : ℚ
deriving DecidableEq, Repr

/-- Modelled from the spec: irradiance normalization with night-time zeroing
(spec §4.1.1): elevation ≤ 0° forces `ghi = dhi = dni = 0` without invoking
the diffuse-fraction model.  The implementation of this adapter step is not
part of the published sources.  The returned boolean records whether the
diffuse-fraction model was invoked. -/
def normalize_irradiance (cubic : ℚ → ℚ) (extraterrestrial elevation ghi_raw : ℚ) :
    NormalizedIrradiance × Bool :=
  if elevation ≤ 0 then ({ ghi := 0, dhi := 0, dni := 0 }, false)
  else
    let kt := ghi_raw / extraterrestrial
    let dhi := estimate_dhi cubic ghi_raw kt
    ({ ghi := ghi_raw, dhi := dhi, dni := ghi_raw - dhi }, true)

/-- C3: diffuse-fraction estimation follows the piecewise Erbs relation in
the clearness index `kt`: for `kt ≤ 0.22` the fraction is `1 − 0.09·kt` (so
`kt = 0` yields exactly `1.0`), for `0.22 < kt ≤ 0.80` it is the cubic
polynomial, for `kt > 0.80` it is the constant `0.165` (so `kt = 0.9` yields
exactly `0.165`), and `dhi = diffuse_fraction × ghi`. -/
theorem erbs_piecewise (cubic : ℚ → ℚ) (kt : ℚ) :
    (kt ≤ 0.22 → erbs_diffuse_fraction cubic kt = 1 - 0.09 * kt) ∧
    (0.22 < kt → kt ≤ 0.80 → erbs_diffuse_fraction cubic kt = cubic kt) ∧
    (0.80 < kt → erbs_diffuse_fraction cubic kt = 0.165) ∧
    erbs_diffuse_fraction cubic 0 = 1 ∧
    erbs_diffuse_fraction cubic 0.9 = 0.165 ∧
    (∀ ghi, estimate_dhi cubic ghi kt = erbs_diffuse_fraction cubic kt * ghi) := by
  refine ⟨fun h => by simp [erbs_diffuse_fraction, h],
          fun h1 h2 => by rw [erbs_diffuse_fraction, if_neg (by linarith), if_pos h2],
          fun h => by rw [erbs_diffuse_fraction, if_neg (by linarith), if_neg (by linarith)],
          by norm_num [erbs_diffuse_fraction],
          by norm_num [erbs_diffuse_fraction],
          fun _ => rfl⟩

/-- Witness for C3: the three branches evaluated at `kt = 0.1`, `0.5`, `0.9`
with the identity as the cubic branch. -/
theorem erbs_piecewise_witness :
    erbs_diffuse_fraction (fun x => x) 0.1 = 1 - 0.09 * 0.1 ∧
    erbs_diffuse_fraction (fun x => x) 0.5 = 0.5 ∧
    erbs_diffuse_fraction (fun x => x) 0.9 = 0.165 :=
  ⟨(erbs_piecewise (fun x => x) 0.1).1 (by norm_num),
   (erbs_piecewise (fun x => x) 0.5).2.1 (by norm_num) (by norm_num),
   (erbs_piecewise (fun x => x) 0.9).2.2.1 (by norm_num)⟩

/-- C9: for every input record whose solar elevation is ≤ 0°, the normalized
output has `ghi = dhi = dni = 0` regardless of the raw irradiance the
provider supplied, and the diffuse-fraction model is not invoked (flag is
`false`). -/
theorem night_time_zeroing (cubic : ℚ → ℚ) (extraterrestrial elevation ghi_raw : ℚ)
    (h : elevation ≤ 0) :
    normalize_irradiance cubic extraterrestrial elevation ghi_raw =
      ({ ghi := 0, dhi := 0, dni := 0 }, false) := by
  simp [normalize_irradiance, h]

/-- Witness for C9: a record at elevation −5° with `ghi = 800` is zeroed. -/
theorem night_time_zeroing_witness :
    normalize_irradiance (fun x => x) 1361 (-5) 800 =
      ({ ghi := 0, dhi := 0, dni := 0 }, false) :=
  night_time_zeroing (fun x => x) 1361 (-5) 800 (by norm_num)

/-! ### E3DC timestamp-shift migration (migrate_e3dc_timestamps.sql, issue #177)

Embedding of the SQL migration script: the `metadata` table is a finite map
from keys to values, `pv_readings` is the list of row timestamps.  The value
written by `datetime('now') || ' migrated'` depends on the wall clock, so the
clock reading is an explicit `String` parameter. -/

/-- Database state touched by the migration: the `metadata` key/value table
(keys unique, modelled as a map) and the timestamps of `pv_readings` rows. -/
structure MigState where
  metadata : String → Option String
  pv : List Int

/-- The metadata key used as the migration marker. -/
def markerKey : String := "migration_177_timestamp_shift"

/-- Step 1 of the script: `INSERT OR IGNORE INTO metadata` of the marker with
value `'pending'` when no row with that key exists. -/
def insertMarker (st : MigState) : MigState :=
  match st.metadata markerKey with
  | some _ => st
  | none =>
    { st with metadata := fun k => if k = markerKey then some "pending" else st.metadata k }

/-- Step 2 of the script: `UPDATE pv_readings SET timestamp = timestamp - 3600`
guarded by `EXISTS (... key = marker AND value = 'pending')`. -/
def shiftIfPending (st : MigState) : MigState :=
  if st.metadata markerKey = some "pending" then
    { st with pv := st.pv.map (fun t => t - 3600) }
  else st

/-- Step 3 of the script: `UPDATE metadata SET value = datetime('now') || ' migrated'`
for the marker row while its value is `'pending'`. -/
def finalizeMarker (now : String) (st : MigState) : MigState :=
  if st.metadata markerKey = some "pending" then
    { st with metadata :=
        fun k => if k = markerKey then some (now ++ " migrated") else st.metadata k }
  else st

/-- One execution of `migrate_e3dc_timestamps.sql` with wall clock `now`. -/
def runMigration (now : String) (st : MigState) : MigState :=
  finalizeMarker now (shiftIfPending (insertMarker st))

theorem append_migrated_ne_pending (s : String) : s ++ " migrated" ≠ "pending" := by
  intro h
  have hlen : (s ++ " migrated").length = ("pending" : String).length := by rw [h]
  rw [String.length_append] at hlen
  have h9 : (" migrated" : String).length = 9 := rfl
  have h7 : ("pending" : String).length = 7 := rfl
  omega

theorem runMigration_fresh (now : String) (st : MigState)
    (hm : st.metadata markerKey = none) :
    (runMigration now st).pv = st.pv.map (fun t => t - 3600) ∧
    (runMigration now st).metadata markerKey = some (now ++ " migrated") := by
  have h1m : (insertMarker st).metadata markerKey = some "pending" := by
    simp [insertMarker, hm]
  have h1pv : (insertMarker st).pv = st.pv := by
    simp [insertMarker, hm]
  have h2m : (shiftIfPending (insertMarker st)).metadata markerKey = some "pending" := by
    simp [shiftIfPending, h1m]
  have h2pv : (shiftIfPending (insertMarker st)).pv = st.pv.map (fun t => t - 3600) := by
    simp [shiftIfPending, h1m, h1pv]
  constructor
  · rw [runMigration, finalizeMarker, if_pos h2m]
    exact h2pv
  · rw [runMigration, finalizeMarker, if_pos h2m]
    simp

theorem runMigration_pending (now : String) (st : MigState)
    (hm : st.metadata markerKey = some "pending") :
    (runMigration now st).pv = st.pv.map (fun t => t - 3600) ∧
    (runMigration now st).metadata markerKey = some (now ++ " migrated") := by
  have h1 : insertMarker st = st := by
    simp [insertMarker, hm]
  have h2m : (shiftIfPending st).metadata markerKey = some "pending" := by
    simp [shiftIfPending, hm]
  have h2pv : (shiftIfPending st).pv = st.pv.map (fun t => t - 3600) := by
    simp [shiftIfPending, hm]
  constructor
  · rw [runMigration, h1, finalizeMarker, if_pos h2m]
    exact h2pv
  · rw [runMigration, h1, finalizeMarker, if_pos h2m]
    simp

theorem runMigration_noop (now : String) (st : MigState) (v : String)
    (hm : st.metadata markerKey = some v) (hne : v ≠ "pending") :
    runMigration now st = st := by
  have h1 : insertMarker st = st := by
    simp [insertMarker, hm]
  have hcond : ¬ st.metadata markerKey = some "pending" := by
    rw [hm]
    simp [hne]
  rw [runMigration, h1, shiftIfPending, if_neg hcond, finalizeMarker, if_neg hcond]

theorem runMigration_marker (now : String) (st : MigState) :
    ∃ w, (runMigration now st).metadata markerKey = some w ∧ w ≠ "pending" := by
  rcases hm : st.metadata markerKey with _ | v
  · exact ⟨now ++ " migrated", (runMigration_fresh now st hm).2,
      append_migrated_ne_pending now⟩
  · by_cases hv : v = "pending"
    · subst hv
      exact ⟨now ++ " migrated", (runMigration_pending now st hm).2,
        append_migrated_ne_pending now⟩
    · rw [runMigration_noop now st v hm hv]
      exact ⟨v, hm, hv⟩

/-- C10: the migration script is idempotent.  On a database where the marker
does not yet exist, one execution shifts every `pv_readings` timestamp by
exactly −3600 seconds and sets the marker to a non-`'pending'` value; on any
database where the marker exists with a non-`'pending'` value, executing the
script changes no `pv_readings` row; and running the script twice from any
initial state equals running it once. -/
theorem migration_idempotent (now : String) (st : MigState) :
    (st.metadata markerKey = none →
      (runMigration now st).pv = st.pv.map (fun t => t - 3600) ∧
      ∃ v, (runMigration now st).metadata markerKey = some v ∧ v ≠ "pending") ∧
    (∀ v, st.metadata markerKey = some v → v ≠ "pending" →
      (runMigration now st).pv = st.pv) ∧
    (∀ now2, runMigration now2 (runMigration now st) = runMigration now st) := by
  refine ⟨?_, ?_, ?_⟩
  · intro hnone
    exact ⟨(runMigration_fresh now st hnone).1,
      now ++ " migrated", (runMigration_fresh now st hnone).2,
      append_migrated_ne_pending now⟩
  · intro v hv hne
    rw [runMigration_noop now st v hv hne]
  · intro now2
    obtain ⟨w, hw, hwne⟩ := runMigration_marker now st
    exact runMigration_noop now2 _ w hw hwne

/-- Witness for C10: a fresh database with rows at 7200 and 10800 is shifted
once and the marker is set; a database already migrated keeps its rows. -/
theorem migration_idempotent_witness :
    (runMigration "t0" ⟨fun _ => none, [7200, 10800]⟩).pv = [7200 - 3600, 10800 - 3600] ∧
    (runMigration "t0"
      ⟨fun k => if k = markerKey then some "done" else none, [7200]⟩).pv = [7200] := by
  constructor
  · exact ((migration_idempotent "t0" ⟨fun _ => none, [7200, 10800]⟩).1 rfl).1
  · exact (migration_idempotent "t0"
      ⟨fun k => if k = markerKey then some "done" else none, [7200]⟩).2.1 "done" rfl
      (by decide)

/-! ### Feature pipeline

Modelled from the spec: the pipeline implementation (`model.py:
prepare_features`, `encode_cyclic`, the lag features) is absent from the
published sources, which contain only its documentation (docs/MODELS.md,
SPEC.md §6) and callers.  External math/physics functions (sine and cosine of
`2π·x`, the pvlib clear-sky model, solar position, calendar decomposition,
the asset-age model) enter as explicit parameters of a `PhysicsCtx`. -/

/-- The canonical normalized weather record consumed by the pipeline
(spec §3): `ghi` is required; `dhi`/`dni` have been estimated by the adapter
when the provider lacked them. -/
structure WeatherRecord where
  timestamp : Nat
  ghi : ℚ
  dhi : ℚ
  dni : ℚ
  temperature : ℚ
  wind_speed : ℚ
  humidity : ℚ
deriving DecidableEq, Repr

/-- A forecast record additionally carries `issued_at` and `target_time`
(spec §3, ForecastIssue). -/
structure ForecastRecord where
  issued_at : Nat
  target_time : Nat
  ghi : ℚ
  dhi : ℚ
  dni : ℚ
  temperature : ℚ
  wind_speed : ℚ
  humidity : ℚ
deriving DecidableEq, Repr

/-- Static asset metadata (spec §3, FeatureRow). -/
structure AssetMeta where
  latitude : ℚ
  longitude : ℚ
  peak_kwp : ℚ
  install_date : Nat
deriving DecidableEq, Repr

/-- External math/physics functions used by the pipeline, passed explicitly:
`sin2pi x` and `cos2pi x` stand for `sin(2π·x)` and `cos(2π·x)`,
`clearskyGhi`/`sunElevation` for the pvlib clear-sky and solar-position
models indexed by timestamp, `monthOf`/`dayOfYearOf` for the calendar, and
`ageFactor` for the asset-age degradation model applied to the elapsed time
since installation. -/
structure PhysicsCtx where
  sin2pi : ℚ → ℚ
  cos2pi : ℚ → ℚ
  clearskyGhi : Nat → ℚ
  sunElevation : Nat → ℚ
  monthOf : Nat → Nat
  dayOfYearOf : Nat → Nat
  ageFactor : Nat → ℚ

/-- Clipping to a closed range, used for the clear-sky index. -/
def clip (lo hi x : ℚ) : ℚ := max lo (min hi x)

/-- Hour of day of a UTC unix timestamp. -/
def hourOf (t : Nat) : Nat := t / 3600 % 24

/-- Modelled from the spec: the per-record part of the deterministic pure
transformation `FeatureRow = transform(WeatherRecord, asset_metadata, now)`
(spec §4.4, docs/MODELS.md feature tables): cyclical time encodings,
raw weather fields, clear-sky index `ghi / clearsky_ghi` clipped to
`[0, 1.5]`, diffuse fraction `dhi / (ghi + 1)`, NOCT module temperature with
the derating factor `1 − 0.004 · max 0 (t_module − 25)`, peak capacity and
asset-age degradation. -/
def transform (ctx : PhysicsCtx) (r : WeatherRecord) (meta : AssetMeta) (now : Nat) :
    List (String × ℚ) :=
  let hour : ℚ := (hourOf r.timestamp : ℚ)
  let month : ℚ := (ctx.monthOf r.timestamp : ℚ)
  let doy : ℚ := (ctx.dayOfYearOf r.timestamp : ℚ)
  let t_module : ℚ := r.temperature + r.ghi * (25 / 800)
  [("hour_sin", ctx.sin2pi (hour / 24)),
   ("hour_cos", ctx.cos2pi (hour / 24)),
   ("month_sin", ctx.sin2pi (month / 12)),
   ("month_cos", ctx.cos2pi (month / 12)),
   ("day_of_year_sin", ctx.sin2pi (doy / 365)),
   ("day_of_year_cos", ctx.cos2pi (doy / 365)),
   ("ghi", r.ghi),
   ("temperature", r.temperature),
   ("sun_elevation", ctx.sunElevation r.timestamp),
   ("wind_speed", r.wind_speed),
   ("humidity", r.humidity),
   ("dhi", r.dhi),
   ("dni", r.dni),
   ("csi", clip 0 1.5 (r.ghi / ctx.clearskyGhi r.timestamp)),
   ("diffuse_fraction", r.dhi / (r.ghi + 1)),
   ("t_module", t_module),
   ("efficiency_factor", 1 - 0.004 * max 0 (t_module - 25)),
   ("peak_kwp", meta.peak_kwp),
   ("age_factor", ctx.ageFactor (now - meta.install_date))]

/-- Projection of a forecast record onto the canonical weather record, the
forecast's `target_time` becoming the record timestamp. -/
def ForecastRecord.toRecord (f : ForecastRecord) : WeatherRecord :=
  { timestamp := f.target_time, ghi := f.ghi, dhi := f.dhi, dni := f.dni,
    temperature := f.temperature, wind_speed := f.wind_speed, humidity := f.humidity }

/-- The training path of the pipeline: features from a historical record. -/
def trainFeatures (ctx : PhysicsCtx) (r : WeatherRecord) (meta : AssetMeta) (now : Nat) :
    List (String × ℚ) :=
  transform ctx r meta now

/-- The inference path of the pipeline: features from a forecast record.  Per
spec §4.4 the same transformation is applied in training and inference. -/
def inferFeatures (ctx : PhysicsCtx) (f : ForecastRecord) (meta : AssetMeta) (now : Nat) :
    List (String × ℚ) :=
  transform ctx f.toRecord meta now

/-- C1: train/inference referential transparency — for every physics context,
asset metadata and current-time context, the inference path applied to a
forecast record carrying the same field values as a historical record yields
a feature row identical to the training path's; the result depends only on
the inputs, never on the invoking path. -/
theorem train_inference_symmetry (ctx : PhysicsCtx) (meta : AssetMeta) (now : Nat)
    (h : WeatherRecord) (f : ForecastRecord)
    (ht : f.target_time = h.timestamp) (hg : f.ghi = h.ghi) (hd : f.dhi = h.dhi)
    (hn : f.dni = h.dni) (htemp : f.temperature = h.temperature)
    (hw : f.wind_speed = h.wind_speed) (hh : f.humidity = h.humidity) :
    inferFeatures ctx f meta now = trainFeatures ctx h meta now := by
  have hrec : f.toRecord = h := by
    rcases h with ⟨t, g, d, n, te, w, hu⟩
    simp only [ForecastRecord.toRecord, WeatherRecord.mk.injEq]
    simp_all
  rw [inferFeatures, trainFeatures, hrec]

/-- Witness for C1: a historical record with `ghi = 500, dhi = 100,
timestamp = 3600` and a forecast record with identical fields produce the
same feature row. -/
theorem train_inference_symmetry_witness :
    inferFeatures ⟨fun x => x, fun x => x, fun _ => 1000, fun _ => 30,
        fun _ => 6, fun _ => 150, fun _ => 1⟩
      ⟨10, 3600, 500, 100, 200, 20, 3, 50⟩ ⟨51.83, 7.28, 9.92, 0⟩ 7200 =
    trainFeatures ⟨fun x => x, fun x => x, fun _ => 1000, fun _ => 30,
        fun _ => 6, fun _ => 150, fun _ => 1⟩
      ⟨3600, 500, 100, 200, 20, 3, 50⟩ ⟨51.83, 7.28, 9.92, 0⟩ 7200 :=
  train_inference_symmetry _ _ _ _ _ rfl rfl rfl rfl rfl rfl rfl

/-- C6: cyclical time encoding — hour-of-day, month and day-of-year enter the
feature vector only as `(sin(2π·x/period), cos(2π·x/period))` pairs, and the
raw linear integer values never appear among the features. -/
theorem cyclical_time_encoding (ctx : PhysicsCtx) (r : WeatherRecord)
    (meta : AssetMeta) (now : Nat) :
    List.lookup "hour_sin" (transform ctx r meta now) =
      some (ctx.sin2pi ((hourOf r.timestamp : ℚ) / 24)) ∧
    List.lookup "hour_cos" (transform ctx r meta now) =
      some (ctx.cos2pi ((hourOf r.timestamp : ℚ) / 24)) ∧
    List.lookup "month_sin" (transform ctx r meta now) =
      some (ctx.sin2pi ((ctx.monthOf r.timestamp : ℚ) / 12)) ∧
    List.lookup "month_cos" (transform ctx r meta now) =
      some (ctx.cos2pi ((ctx.monthOf r.timestamp : ℚ) / 12)) ∧
    List.lookup "day_of_year_sin" (transform ctx r meta now) =
      some (ctx.sin2pi ((ctx.dayOfYearOf r.timestamp : ℚ) / 365)) ∧
    List.lookup "day_of_year_cos" (transform ctx r meta now) =
      some (ctx.cos2pi ((ctx.dayOfYearOf r.timestamp : ℚ) / 365)) ∧
    (transform ctx r meta now).map Prod.fst =
      ["hour_sin", "hour_cos", "month_sin", "month_cos",
       "day_of_year_sin", "day_of_year_cos", "ghi", "temperature",
       "sun_elevation", "wind_speed", "humidity", "dhi", "dni", "csi",
       "diffuse_fraction", "t_module", "efficiency_factor", "peak_kwp",
       "age_factor"] ∧
    "hour" ∉ (transform ctx r meta now).map Prod.fst ∧
    "month" ∉ (transform ctx r meta now).map Prod.fst ∧
    "day_of_year" ∉ (transform ctx r meta now).map Prod.fst := by
  refine ⟨?_, ?_, ?_, ?_, ?_, ?_, ?_, ?_, ?_, ?_⟩ <;>
    simp [transform, List.lookup]

/-! ### Lag and rolling features (spec §4.4, docs/MODELS.md lag table) -/

/-- Modelled from the spec: the `ghi` value of the record at timestamp `t`,
if any. -/
def ghiAt (records : List WeatherRecord) (t : Nat) : Option ℚ :=
  (records.find? (fun r => r.timestamp == t)).map (fun r => r.ghi)

/-- Modelled from the spec: the records in the rolling window `[T − 3h, T)`. -/
def lagWindow (records : List WeatherRecord) (T : Nat) : List WeatherRecord :=
  records.filter (fun r => decide (T - 10800 ≤ r.timestamp) && decide (r.timestamp < T))

/-- Modelled from the spec: the 3-hour rolling mean of `ghi` over the window
`[T − 3h, T)` (0 when the window is empty, by `ℚ` division by zero). -/
def rollingMean3h (records : List WeatherRecord) (T : Nat) : ℚ :=
  ((lagWindow records T).map (fun r => r.ghi)).sum / ((lagWindow records T).length : ℚ)

/-- The lag feature block of a feature row. -/
structure LagFeatures where
  ghi_lag_1h : Option ℚ
  ghi_lag_3h : Option ℚ
  ghi_rolling_3h : ℚ
deriving DecidableEq, Repr

/-- Modelled from the spec: lag and rolling features for the row at `T` —
irradiance 1 hour and 3 hours prior and the 3-hour rolling mean
(docs/MODELS.md: `ghi_lag_1h/3h`, `ghi_rolling_3h`). -/
def lagFeaturesAt (records : List WeatherRecord) (T : Nat) : LagFeatures :=
  { ghi_lag_1h := ghiAt records (T - 3600)
    ghi_lag_3h := ghiAt records (T - 10800)
    ghi_rolling_3h := rollingMean3h records T }

/-- Modelled from the spec: the full feature row for the record at timestamp
`T`, combining the per-record transformation with the lag features computed
from the record history (spec §9: the only time-dependent inputs are records
at or before `T` and static metadata). -/
def featureRowAt (ctx : PhysicsCtx) (records : List WeatherRecord) (meta : AssetMeta)
    (now T : Nat) : Option (List (String × ℚ) × LagFeatures) :=
  (records.find? (fun r => r.timestamp == T)).map
    (fun r => (transform ctx r meta now, lagFeaturesAt records T))

theorem find?_filter_of_imp {α : Type} (l : List α) (p q : α → Bool)
    (h : ∀ a, p a = true → q a = true) :
    (l.filter q).find? p = l.find? p := by
  induction l with
  | nil => rfl
  | cons a t ih =>
    by_cases hp : p a = true
    · rw [List.filter_cons, if_pos (h a hp),
        List.find?_cons_of_pos _ hp, List.find?_cons_of_pos _ hp]
    · by_cases hq : q a = true
      · rw [List.filter_cons, if_pos hq, List.find?_cons_of_neg _ hp,
          List.find?_cons_of_neg _ hp, ih]
      · rw [List.filter_cons, if_neg hq, List.find?_cons_of_neg _ hp, ih]

theorem filter_filter_of_imp {α : Type} (l : List α) (p q : α → Bool)
    (h : ∀ a, p a = true → q a = true) :
    (l.filter q).filter p = l.filter p := by
  rw [List.filter_filter]
  apply List.filter_congr
  intro a _
  by_cases hp : p a = true
  · simp [hp, h a hp]
  · simp [hp]

/-- C2: no future leakage — the 1-hour lag feature equals the `ghi` value at
`T − 1h`, the 3-hour lag feature equals the `ghi` value at `T − 3h`, the
rolling feature equals the mean of `ghi` over `[T − 3h, T)`, and removing
every record with timestamp later than `T` from the input leaves the feature
row for `T` unchanged, so the row is computable from records with
timestamp ≤ `T` alone. -/
theorem no_future_leakage (ctx : PhysicsCtx) (records : List WeatherRecord)
    (meta : AssetMeta) (now T : Nat) :
    (lagFeaturesAt records T).ghi_lag_1h = ghiAt records (T - 3600) ∧
    (lagFeaturesAt records T).ghi_lag_3h = ghiAt records (T - 10800) ∧
    (lagFeaturesAt records T).ghi_rolling_3h =
      ((lagWindow records T).map (fun r => r.ghi)).sum /
        ((lagWindow records T).length : ℚ) ∧
    featureRowAt ctx (records.filter (fun r => decide (r.timestamp ≤ T))) meta now T =
      featureRowAt ctx records meta now T := by
  refine ⟨rfl, rfl, rfl, ?_⟩
  have himp : ∀ t, t ≤ T → ∀ r : WeatherRecord,
      (r.timestamp == t) = true → decide (r.timestamp ≤ T) = true := by
    intro t htT r hr
    have : r.timestamp = t := by simpa using hr
    simp [this, htT]
  have hfind : ∀ t, t ≤ T →
      (records.filter (fun r => decide (r.timestamp ≤ T))).find?
          (fun r => r.timestamp == t) =
        records.find? (fun r => r.timestamp == t) := by
    intro t htT
    exact find?_filter_of_imp records _ _ (himp t htT)
  have hwin : lagWindow (records.filter (fun r => decide (r.timestamp ≤ T))) T =
      lagWindow records T := by
    unfold lagWindow
    apply filter_filter_of_imp
    intro r hr
    have : r.timestamp < T := by
      simp only [Bool.and_eq_true, decide_eq_true_eq] at hr
      exact hr.2
    simp [Nat.le_of_lt this]
  have hlag : lagFeaturesAt (records.filter (fun r => decide (r.timestamp ≤ T))) T =
      lagFeaturesAt records T := by
    unfold lagFeaturesAt ghiAt rollingMean3h
    rw [hwin, hfind (T - 3600) (Nat.sub_le T 3600), hfind (T - 10800) (Nat.sub_le T 10800)]
  unfold featureRowAt
  rw [hfind T (Nat.le_refl T), hlag]

/-! ### Transport/resilience layer (spec §4.6)

Modelled from the spec: the retry logic (`weather.py` lines 43–122 per
docs/CODE-REVIEW.md) is absent from the published sources.  Randomness (the
full-jitter sample) and the provider's responses are explicit inputs. -/

/-- Retry/backoff configuration, threaded explicitly (spec §9). -/
structure RetryConfig where
  max_retries : Nat
  base_delay : ℚ
  max_delay : ℚ

/-- One provider response: success, failure, or an HTTP 429 rate limit with
an optional retry-after hint. -/
inductive CallResult where
  | ok
  | failed
  | rateLimited (retryAfter : Option ℚ)
deriving DecidableEq, Repr

/-- Whether a response is a failure (anything but success). -/
def CallResult.isFailure : CallResult → Bool
  | .ok => false
  | _ => true

/-- Outcome of the wrapped call. -/
inductive Outcome where
  | success
  | providerUnavailable
deriving DecidableEq, Repr

/-- Modelled from the spec: exponential backoff — base delay doubling per
attempt, capped at the configured maximum (spec §4.6). -/
def backoffDelay (cfg : RetryConfig) (attempt : Nat) : ℚ :=
  min (cfg.base_delay * 2 ^ attempt) cfg.max_delay

/-- Modelled from the spec: the delay actually slept before the next attempt —
an HTTP 429 retry-after hint is honored when present, otherwise the
full-jitter schedule samples within `[0, computed_delay]` via the jitter
fraction `jitter ∈ [0, 1]` (spec §4.6). -/
def delayFor (cfg : RetryConfig) (attempt : Nat) (jitter : ℚ) : CallResult → ℚ
  | .rateLimited (some hint) => hint
  | _ => jitter * backoffDelay cfg attempt

/-- Modelled from the spec: the retry loop — `responses i` is the provider's
behavior on attempt `i`; at most `fuel` attempts starting at `attempt` are
made, returning the outcome and the number of attempts made. -/
def retryGo (responses : Nat → CallResult) (attempt : Nat) : Nat → Outcome × Nat
  | 0 => (.providerUnavailable, 0)
  | fuel + 1 =>
    match responses attempt with
    | .ok => (.success, 1)
    | _ =>
      let rest := retryGo responses (attempt + 1) fuel
      (rest.1, rest.2 + 1)

/-- Modelled from the spec: a wrapped provider call makes up to
`max_retries + 1` attempts and fails with `ProviderUnavailable` after retry
exhaustion (spec §4.6). -/
def retryCall (responses : Nat → CallResult) (cfg : RetryConfig) : Outcome × Nat :=
  retryGo responses 0 (cfg.max_retries + 1)

theorem retryGo_all_failed (responses : Nat → CallResult)
    (hfail : ∀ i, (responses i).isFailure = true) :
    ∀ fuel attempt, retryGo responses attempt fuel = (.providerUnavailable, fuel) := by
  intro fuel
  induction fuel with
  | zero => intro attempt; rfl
  | succ n ih =>
    intro attempt
    have h := hfail attempt
    rcases hr : responses attempt with _ | _ | hint
    · rw [hr] at h
      simp [CallResult.isFailure] at h
    · simp only [retryGo, hr, ih (attempt + 1)]
    · simp only [retryGo, hr, ih (attempt + 1)]

/-- C5: retry bound of the transport layer — a provider call failing on every
attempt is attempted exactly `max_retries + 1` times and then fails with
`ProviderUnavailable`; the computed backoff delay per attempt is monotonically
non-decreasing (for a non-negative base delay) and bounded by the configured
cap; and a 429 response carrying a retry-after hint is honored instead of the
jittered backoff schedule. -/
theorem retry_bound (cfg : RetryConfig) (responses : Nat → CallResult)
    (jitter hint : ℚ) (attempt : Nat) :
    ((∀ i, (responses i).isFailure = true) →
      retryCall responses cfg = (.providerUnavailable, cfg.max_retries + 1)) ∧
    (0 ≤ cfg.base_delay →
      ∀ i, backoffDelay cfg i ≤ backoffDelay cfg (i + 1)) ∧
    (∀ i, backoffDelay cfg i ≤ cfg.max_delay) ∧
    delayFor cfg attempt jitter (.rateLimited (some hint)) = hint := by
  refine ⟨?_, ?_, ?_, rfl⟩
  · intro hfail
    exact retryGo_all_failed responses hfail (cfg.max_retries + 1) 0
  · intro hbase i
    apply min_le_min_right
    have h2 : (cfg.base_delay * 2 ^ i) * 1 ≤ (cfg.base_delay * 2 ^ i) * 2 := by
      apply mul_le_mul_of_nonneg_left (by norm_num)
      positivity
    calc cfg.base_delay * 2 ^ i = (cfg.base_delay * 2 ^ i) * 1 := by ring
      _ ≤ (cfg.base_delay * 2 ^ i) * 2 := h2
      _ = cfg.base_delay * 2 ^ (i + 1) := by ring
  · intro i
    exact min_le_right _ _

/-- Witness for C5: with `max_retries = 2`, base delay 1 s and cap 10 s, an
always-failing provider is attempted 3 times, the backoff is non-decreasing
at attempt 0 and a 30-second retry-after hint is honored. -/
theorem retry_bound_witness :
    retryCall (fun _ => .failed) ⟨2, 1, 10⟩ = (.providerUnavailable, 3) ∧
    backoffDelay ⟨2, 1, 10⟩ 0 ≤ backoffDelay ⟨2, 1, 10⟩ 1 ∧
    delayFor ⟨2, 1, 10⟩ 0 (1 / 2) (.rateLimited (some 30)) = 30 :=
  ⟨(retry_bound ⟨2, 1, 10⟩ (fun _ => .failed) (1 / 2) 30 0).1 (fun _ => rfl),
   (retry_bound ⟨2, 1, 10⟩ (fun _ => .failed) (1 / 2) 30 0).2.1 (by norm_num) 0,
   (retry_bound ⟨2, 1, 10⟩ (fun _ => .failed) (1 / 2) 30 0).2.2.2⟩

/-! ### Compressed-XML forecast adapter (spec §4.2, docs/ARCHITECTURE_DWD.md)

Modelled from the spec: the MOSMIX KML parser (`sources/mosmix.py`) is absent
from the published sources.  A decoded batch is the time axis plus the
optional named parameter arrays already aligned to it; the mandatory
irradiance array (`Rad1h`) missing is a `ParseError`, missing optional
arrays yield `none` on the record. -/

/-- A decoded forecast batch: one time axis and the parameter arrays that
were present in the document. -/
structure ForecastBatch where
  times : List Nat
  rad1h : Option (List ℚ)
  neff : Option (List ℚ)
  ttt : Option (List ℚ)
deriving DecidableEq, Repr

/-- Adapter error kinds (spec §7). -/
inductive AdapterError where
  | parseError
  | providerUnavailable
  | rangeUnavailable
deriving DecidableEq, Repr

/-- A record produced by the forecast adapter: `ghi` is mandatory, the other
parameters stay optional (spec §4.2, WEATHER-PROVIDER-REQUIREMENTS §4.3). -/
structure ParsedRecord where
  timestamp : Nat
  ghi : ℚ
  cloud_cover : Option ℚ
  temperature : Option ℚ
deriving DecidableEq, Repr

/-- Modelled from the spec: parsing a decoded forecast batch into records —
a missing irradiance array is a `ParseError` (irradiance is mandatory); the
i-th record pairs the i-th time with the i-th irradiance value and takes the
optional parameters from the i-th entry of their arrays when present
(spec §4.2). -/
def parseForecastBatch (b : ForecastBatch) : Except AdapterError (List ParsedRecord) :=
  match b.rad1h with
  | none => .error .parseError
  | some gs =>
    .ok ((b.times.zip gs).enum.map (fun p =>
      { timestamp := p.2.1
        ghi := p.2.2
        cloud_cover := b.neff.bind (fun cs => cs.get? p.1)
        temperature := b.ttt.bind (fun ts => ts.get? p.1) }))

/-- C7: missing optional parameter tolerance — a batch whose irradiance array
is present but whose cloud-cover array is absent parses successfully, every
produced record has `cloud_cover = none`, and the records' `ghi` values are
exactly the irradiance array values aligned to the time axis; a batch whose
irradiance array is missing fails with `ParseError`. -/
theorem missing_optional_parameter_tolerance (b : ForecastBatch) :
    (∀ gs, b.rad1h = some gs → b.neff = none →
      ∃ recs, parseForecastBatch b = .ok recs ∧
        (∀ r ∈ recs, r.cloud_cover = none) ∧
        recs.map (fun r => r.ghi) = (b.times.zip gs).map Prod.snd) ∧
    (b.rad1h = none → parseForecastBatch b = .error .parseError) := by
  constructor
  · intro gs hg hn
    refine ⟨_, by rw [parseForecastBatch, hg], ?_, ?_⟩
    · intro r hr
      simp only [List.mem_map] at hr
      obtain ⟨p, _, hp⟩ := hr
      rw [← hp]
      simp [hn]
    · have key : ∀ (l : List (Nat × ℚ)) (n : Nat),
          (l.enumFrom n).map (fun p => p.2.2) = l.map Prod.snd := by
        intro l
        induction l with
        | nil => intro n; rfl
        | cons a t ih => intro n; simp only [List.enumFrom, List.map_cons, ih]
      rw [List.map_map]
      exact key (b.times.zip gs) 0
  · intro hg
    rw [parseForecastBatch, hg]

/-- Witness for C7: a two-step batch with irradiance present and cloud cover
absent parses into records with `cloud_cover = none` and the irradiance
values as `ghi`; the same batch without its irradiance array is a
`ParseError`. -/
theorem missing_optional_parameter_tolerance_witness :
    (∃ recs, parseForecastBatch ⟨[0, 3600], some [500, 300], none, some [20, 21]⟩ =
        .ok recs ∧
      (∀ r ∈ recs, r.cloud_cover = none) ∧
      recs.map (fun r => r.ghi) =
        (([0, 3600] : List Nat).zip ([500, 300] : List ℚ)).map Prod.snd) ∧
    parseForecastBatch ⟨[0, 3600], none, some [80, 90], some [20, 21]⟩ =
      .error .parseError :=
  ⟨(missing_optional_parameter_tolerance
      ⟨[0, 3600], some [500, 300], none, some [20, 21]⟩).1 [500, 300] rfl rfl,
   (missing_optional_parameter_tolerance
      ⟨[0, 3600], none, some [80, 90], some [20, 21]⟩).2 rfl⟩

/-! ### Persistence sink (spec §3 record lifecycle, src/SPEC.md `weather_history`)

Modelled from the spec: `db.py` is absent from the published sources; the
`weather_history` schema in src/SPEC.md has `timestamp INTEGER PRIMARY KEY`
and `ghi_wm2 REAL NOT NULL` (no source column, per the known limitation note
in the test concept), and the changelog documents `INSERT OR REPLACE` after
fetch.  Adapters either supply `ghi` or drop the record before storage. -/

/-- A record as handed to the persistence layer by an adapter: `ghi` may
still be absent at this point (the provider might not have supplied it). -/
structure RawRecord where
  timestamp : Nat
  source : String
  ghi : Option ℚ
  cloud_cover : Option ℚ
deriving DecidableEq, Repr

/-- Modelled from the spec: `INSERT OR REPLACE` keyed on `timestamp` — the
new row replaces any row with the same timestamp. -/
def upsert (st : List RawRecord) (r : RawRecord) : List RawRecord :=
  r :: st.filter (fun x => x.timestamp != r.timestamp)

/-- Modelled from the spec: the adapter storage step — a record without `ghi`
is dropped before storage, any other record is upserted. -/
def storeStep (st : List RawRecord) (r : RawRecord) : List RawRecord :=
  match r.ghi with
  | none => st
  | some _ => upsert st r

/-- The persistence state reached from the empty store by a sequence of
adapter storage operations. -/
def applyOps (ops : List RawRecord) : List RawRecord :=
  ops.foldl storeStep []

/-- The two stored-record invariants: timestamps are pairwise distinct and
`ghi` is never null. -/
def StoreInv (st : List RawRecord) : Prop :=
  (st.map (fun r => r.timestamp)).Nodup ∧ ∀ r ∈ st, r.ghi ≠ none

theorem storeStep_inv (st : List RawRecord) (r : RawRecord) (h : StoreInv st) :
    StoreInv (storeStep st r) := by
  rcases hg : r.ghi with _ | g
  · simpa [storeStep, hg] using h
  · obtain ⟨hnd, hghi⟩ := h
    refine ⟨?_, ?_⟩
    · simp only [storeStep, hg, upsert, List.map_cons, List.nodup_cons]
      constructor
      · intro hmem
        simp only [List.mem_map, List.mem_filter] at hmem
        obtain ⟨x, ⟨_, hx⟩, hxt⟩ := hmem
        rw [hxt] at hx
        simp at hx
      · have hsub : List.Sublist ((st.filter (fun x => x.timestamp != r.timestamp)).map
            (fun r => r.timestamp)) (st.map (fun r => r.timestamp)) :=
          List.Sublist.map _ (List.filter_sublist st)
        exact hnd.sublist hsub
    · intro x hx
      simp only [storeStep, hg, upsert, List.mem_cons, List.mem_filter] at hx
      rcases hx with hx | ⟨hx, _⟩
      · rw [hx, hg]
        simp
      · exact hghi x hx

theorem foldl_store_inv (ops : List RawRecord) :
    ∀ st, StoreInv st → StoreInv (ops.foldl storeStep st) := by
  induction ops with
  | nil => intro st h; exact h
  | cons r t ih => intro st h; exact ih _ (storeStep_inv st r h)

/-- C8: stored weather record invariant — every persistence state reachable
by adapter storage operations holds at most one record per
`(timestamp, source)` pair (the schema keys on `timestamp` alone, so two
stored records with the same timestamp are the same record), and the `ghi`
field of every stored record is non-null: an adapter either supplies `ghi`
or the record is dropped before storage. -/
theorem stored_record_invariant (ops : List RawRecord) :
    (∀ r1 ∈ applyOps ops, ∀ r2 ∈ applyOps ops,
      r1.timestamp = r2.timestamp → r1.source = r2.source → r1 = r2) ∧
    ∀ r ∈ applyOps ops, r.ghi ≠ none := by
  obtain ⟨hnd, hghi⟩ := foldl_store_inv ops [] ⟨List.nodup_nil, by simp⟩
  refine ⟨?_, hghi⟩
  intro r1 h1 r2 h2 ht _
  have := List.inj_on_of_nodup_map hnd
  exact this h1 h2 ht

/-- Witness for C8: after storing a ghi-less record (dropped), a valid record
and a same-timestamp replacement, the surviving record is unique for its key
and its `ghi` is non-null. -/
theorem stored_record_invariant_witness :
    (⟨0, "hostrada", some 200, none⟩ : RawRecord) =
      (⟨0, "hostrada", some 200, none⟩ : RawRecord) ∧
    (⟨0, "hostrada", some 200, none⟩ : RawRecord).ghi ≠ none :=
  ⟨(stored_record_invariant [⟨0, "om", none, some 10⟩, ⟨0, "om", some 100, none⟩,
      ⟨0, "hostrada", some 200, none⟩]).1
      ⟨0, "hostrada", some 200, none⟩ (by decide)
      ⟨0, "hostrada", some 200, none⟩ (by decide) rfl rfl,
   (stored_record_invariant [⟨0, "om", none, some 10⟩, ⟨0, "om", some 100, none⟩,
      ⟨0, "hostrada", some 200, none⟩]).2
      ⟨0, "hostrada", some 200, none⟩ (by decide)⟩

/-! ### Continuity manager (spec §4.5, `find_weather_gaps` in
docs/WEATHER-PROVIDER-REQUIREMENTS.md)

Modelled from the spec: `weather.py: find_weather_gaps` and
`ensure_weather_history` are absent from the published sources.  Time is
hourly: the requested range `[s, e)` and persisted timestamps are hour
indices; the gap computation materializes the missing hours and merges
consecutive runs into maximal `GapRange`s. -/

/-- The hour indices of the half-open range of the given length starting at
`s`. -/
def hoursIn (s : Nat) : Nat → List Nat
  | 0 => []
  | n + 1 => s :: hoursIn (s + 1) n

/-- Modelled from the spec: the hours of `[s, e)` missing from the persisted
timestamps. -/
def missingHours (existing : List Nat) (s e : Nat) : List Nat :=
  (hoursIn s (e - s)).filter (fun h => decide (h ∉ existing))

/-- Merging a list of hour indices into maximal runs of consecutive hours,
each run a half-open `(start, end)` GapRange. -/
def groupRuns : List Nat → List (Nat × Nat)
  | [] => []
  | h :: t =>
    match groupRuns t with
    | [] => [(h, h + 1)]
    | (s, e) :: rest =>
      if h + 1 = s then (h, e) :: rest else (h, h + 1) :: (s, e) :: rest

/-- Modelled from the spec: `gaps(requested_range, existing_timestamps)` —
the complement of the persisted timestamps within `[s, e)` as a minimal list
of GapRanges (spec §4.5). -/
def find_weather_gaps (existing : List Nat) (s e : Nat) : List (Nat × Nat) :=
  groupRuns (missingHours existing s e)

/-- Membership of an hour in a list of GapRanges. -/
def inRanges (rs : List (Nat × Nat)) (x : Nat) : Prop :=
  ∃ p ∈ rs, p.1 ≤ x ∧ x < p.2

instance (rs : List (Nat × Nat)) (x : Nat) : Decidable (inRanges rs x) :=
  inferInstanceAs (Decidable (∃ p ∈ rs, p.1 ≤ x ∧ x < p.2))

/-- The backfill fetch for one GapRange: the historical adapter returns the
records of the gap's hours. -/
def fetchGap (g : Nat × Nat) : List Nat := hoursIn g.1 (g.2 - g.1)

/-- Modelled from the spec: one continuity pass — compute the gaps, issue one
`fetch_historical` per gap and persist the fetched hours; returns the number
of fetch calls made and the resulting persisted set (spec §4.5). -/
def runContinuity (existing : List Nat) (s e : Nat) : Nat × List Nat :=
  ((find_weather_gaps existing s e).length,
   existing ++ ((find_weather_gaps existing s e).map fetchGap).flatten)

theorem groupRuns_cons (h : Nat) (t : List Nat) :
    groupRuns (h :: t) =
      match groupRuns t with
      | [] => [(h, h + 1)]
      | (s, e) :: rest =>
        if h + 1 = s then (h, e) :: rest else (h, h + 1) :: (s, e) :: rest := rfl

theorem mem_hoursIn : ∀ (n s x : Nat), x ∈ hoursIn s n ↔ s ≤ x ∧ x < s + n := by
  intro n
  induction n with
  | zero =>
    intro s x
    simp only [hoursIn, List.not_mem_nil, false_iff]
    omega
  | succ m ih =>
    intro s x
    simp only [hoursIn, List.mem_cons, ih (s + 1)]
    omega

theorem pairwise_hoursIn : ∀ (n s : Nat), (hoursIn s n).Pairwise (· < ·) := by
  intro n
  induction n with
  | zero => intro s; simp [hoursIn]
  | succ m ih =>
    intro s
    simp only [hoursIn]
    refine List.pairwise_cons.mpr ⟨?_, ih (s + 1)⟩
    intro y hy
    rw [mem_hoursIn] at hy
    omega

theorem mem_missingHours (existing : List Nat) (s e x : Nat) :
    x ∈ missingHours existing s e ↔ (s ≤ x ∧ x < s + (e - s)) ∧ x ∉ existing := by
  rw [missingHours, List.mem_filter, mem_hoursIn]
  simp

theorem inRanges_nil (x : Nat) : ¬ inRanges [] x := by
  rintro ⟨q, hq, _⟩
  simp at hq

theorem inRanges_cons (p : Nat × Nat) (rs : List (Nat × Nat)) (x : Nat) :
    inRanges (p :: rs) x ↔ (p.1 ≤ x ∧ x < p.2) ∨ inRanges rs x := by
  constructor
  · rintro ⟨q, hq, hx⟩
    rcases List.mem_cons.mp hq with rfl | hq
    · exact Or.inl hx
    · exact Or.inr ⟨q, hq, hx⟩
  · rintro (hx | ⟨q, hq, hx⟩)
    · exact ⟨p, List.mem_cons_self _ _, hx⟩
    · exact ⟨q, List.mem_cons_of_mem _ hq, hx⟩

theorem groupRuns_pos : ∀ (l : List Nat), ∀ p ∈ groupRuns l, p.1 < p.2 := by
  intro l
  induction l with
  | nil => intro p hp; simp [groupRuns] at hp
  | cons h t ih =>
    intro p hp
    rcases hgr : groupRuns t with _ | ⟨⟨s, e⟩, rest⟩
    · simp only [groupRuns, hgr, List.mem_singleton] at hp
      rw [hp]
      exact Nat.lt_succ_self h
    · simp only [groupRuns, hgr] at hp
      by_cases hadj : h + 1 = s
      · rw [if_pos hadj] at hp
        rcases List.mem_cons.mp hp with rfl | hp
        · have hse := ih (s, e) (by rw [hgr]; exact List.mem_cons_self _ _)
          simp only at hse ⊢
          omega
        · exact ih p (by rw [hgr]; exact List.mem_cons_of_mem _ hp)
      · rw [if_neg hadj] at hp
        rcases List.mem_cons.mp hp with rfl | hp
        · exact Nat.lt_succ_self h
        · exact ih p (by rw [hgr]; exact hp)

theorem groupRuns_head (a : Nat) (t : List Nat) :
    ∃ e rest, groupRuns (a :: t) = (a, e) :: rest := by
  rcases hgr : groupRuns t with _ | ⟨⟨s, e⟩, rest⟩
  · exact ⟨a + 1, [], by simp [groupRuns, hgr]⟩
  · by_cases hadj : a + 1 = s
    · exact ⟨e, rest, by simp [groupRuns, hgr, hadj]⟩
    · exact ⟨a + 1, (s, e) :: rest, by simp [groupRuns, hgr, hadj]⟩

theorem inRanges_groupRuns : ∀ (l : List Nat) (x : Nat),
    inRanges (groupRuns l) x ↔ x ∈ l := by
  intro l
  induction l with
  | nil => intro x; simp [groupRuns, inRanges]
  | cons h t ih =>
    intro x
    rcases hgr : groupRuns t with _ | ⟨⟨s, e⟩, rest⟩
    · have h0 : groupRuns (h :: t) = [(h, h + 1)] := by simp [groupRuns, hgr]
      have hx := ih x
      rw [hgr] at hx
      rw [h0, inRanges_cons, List.mem_cons]
      constructor
      · rintro (⟨h1, h2⟩ | habs)
        · left; omega
        · exact absurd habs (inRanges_nil x)
      · rintro (rfl | hxt)
        · exact Or.inl ⟨Nat.le_refl _, Nat.lt_succ_self _⟩
        · exact absurd (hx.mpr hxt) (inRanges_nil x)
    · have hse : s < e := groupRuns_pos t (s, e) (by rw [hgr]; exact List.mem_cons_self _ _)
      have hx := ih x
      rw [hgr, inRanges_cons] at hx
      by_cases hadj : h + 1 = s
      · have h0 : groupRuns (h :: t) = (h, e) :: rest := by simp [groupRuns, hgr, hadj]
        rw [h0, inRanges_cons, List.mem_cons]
        constructor
        · rintro (⟨h1, h2⟩ | hr)
          · by_cases hxh : x = h
            · exact Or.inl hxh
            · right
              apply hx.mp
              left
              constructor <;> omega
          · exact Or.inr (hx.mp (Or.inr hr))
        · rintro (rfl | hxt)
          · exact Or.inl ⟨Nat.le_refl _, by omega⟩
          · rcases hx.mpr hxt with ⟨h1, h2⟩ | hr
            · exact Or.inl ⟨by omega, h2⟩
            · exact Or.inr hr
      · have h0 : groupRuns (h :: t) = (h, h + 1) :: (s, e) :: rest := by
          simp [groupRuns, hgr, hadj]
        rw [h0, inRanges_cons, inRanges_cons, List.mem_cons]
        constructor
        · rintro (⟨h1, h2⟩ | hr)
          · left; omega
          · exact Or.inr (hx.mp hr)
        · rintro (rfl | hxt)
          · exact Or.inl ⟨Nat.le_refl _, Nat.lt_succ_self _⟩
          · exact Or.inr (hx.mpr hxt)

theorem groupRuns_separated : ∀ (l : List Nat), l.Pairwise (· < ·) →
    List.Chain' (fun p q : Nat × Nat => p.2 < q.1) (groupRuns l) := by
  intro l
  induction l with
  | nil => intro _; simp [groupRuns]
  | cons h t ih =>
    intro hp
    obtain ⟨hhd, htl⟩ := List.pairwise_cons.mp hp
    rcases hgr : groupRuns t with _ | ⟨⟨s, e⟩, rest⟩
    · have h0 : groupRuns (h :: t) = [(h, h + 1)] := by simp [groupRuns, hgr]
      rw [h0]
      exact List.chain'_singleton _
    · have hsep := ih htl
      rw [hgr] at hsep
      by_cases hadj : h + 1 = s
      · have h0 : groupRuns (h :: t) = (h, e) :: rest := by simp [groupRuns, hgr, hadj]
        rw [h0]
        rcases rest with _ | ⟨q, rest'⟩
        · exact List.chain'_singleton _
        · rw [List.chain'_cons] at hsep ⊢
          exact ⟨hsep.1, hsep.2⟩
      · have ht : t ≠ [] := by
          intro habs
          rw [habs] at hgr
          simp [groupRuns] at hgr
        obtain ⟨a, t', rfl⟩ := List.exists_cons_of_ne_nil ht
        obtain ⟨e', rest', hh⟩ := groupRuns_head a t'
        rw [hgr] at hh
        have hsa : s = a := by
          have := (List.cons.injEq _ _ _ _).mp hh
          exact (Prod.mk.injEq _ _ _ _).mp this.1 |>.1
        have hha : h < a := hhd a (List.mem_cons_self a t')
        have h0 : groupRuns (h :: a :: t') = (h, h + 1) :: (s, e) :: rest := by
          rw [groupRuns_cons, hgr]
          exact if_neg hadj
        rw [h0, List.chain'_cons]
        exact ⟨by simp only; omega, hsep⟩

theorem gaps_empty_of_covered (existing : List Nat) (s e : Nat)
    (hcov : ∀ h, s ≤ h → h < e → h ∈ existing) :
    find_weather_gaps existing s e = [] := by
  rw [find_weather_gaps]
  have hm : missingHours existing s e = [] := by
    apply List.eq_nil_iff_forall_not_mem.mpr
    intro x hx
    rw [mem_missingHours] at hx
    exact hx.2 (hcov x hx.1.1 (by omega))
  rw [hm]
  rfl

/-- C4: gap computation is idempotent and minimal — the gap list is empty
whenever the persisted timestamps fully cover the requested range; every
returned GapRange is nonempty; consecutive GapRanges are strictly separated
(adjacent and overlapping gaps merged); the union of the GapRanges is
exactly the uncovered part of the requested range; and a second continuity
pass over the state left by the first issues zero fetch calls. -/
theorem gap_idempotence (existing : List Nat) (s e : Nat) :
    ((∀ h, s ≤ h → h < e → h ∈ existing) → find_weather_gaps existing s e = []) ∧
    (∀ p ∈ find_weather_gaps existing s e, p.1 < p.2) ∧
    List.Chain' (fun p q : Nat × Nat => p.2 < q.1) (find_weather_gaps existing s e) ∧
    (∀ x, inRanges (find_weather_gaps existing s e) x ↔
      s ≤ x ∧ x < e ∧ x ∉ existing) ∧
    (runContinuity (runContinuity existing s e).2 s e).1 = 0 := by
  refine ⟨gaps_empty_of_covered existing s e,
    groupRuns_pos (missingHours existing s e),
    groupRuns_separated (missingHours existing s e)
      ((pairwise_hoursIn (e - s) s).filter _),
    ?_, ?_⟩
  · intro x
    rw [find_weather_gaps, inRanges_groupRuns, mem_missingHours]
    constructor
    · rintro ⟨⟨h1, h2⟩, h3⟩
      exact ⟨h1, by omega, h3⟩
    · rintro ⟨h1, h2, h3⟩
      exact ⟨⟨h1, by omega⟩, h3⟩
  · have hcov : ∀ h, s ≤ h → h < e → h ∈ (runContinuity existing s e).2 := by
      intro h h1 h2
      rw [runContinuity, List.mem_append]
      by_cases hex : h ∈ existing
      · exact Or.inl hex
      · right
        have hmiss : h ∈ missingHours existing s e := by
          rw [mem_missingHours]
          exact ⟨⟨h1, by omega⟩, hex⟩
        obtain ⟨p, hp, hp1, hp2⟩ :=
          (inRanges_groupRuns (missingHours existing s e) h).mpr hmiss
        rw [List.mem_flatten]
        refine ⟨fetchGap p, List.mem_map_of_mem fetchGap hp, ?_⟩
        rw [fetchGap, mem_hoursIn]
        exact ⟨hp1, by omega⟩
    have h0 : find_weather_gaps (runContinuity existing s e).2 s e = [] :=
      gaps_empty_of_covered _ s e hcov
    rw [runContinuity, h0]
    rfl

/-- Witness for C4: a fully covered range yields no gaps; the gap of a
partially covered range is nonempty; and the second continuity pass after
backfilling `[0, 4)` around the lone persisted hour 2 issues zero fetches. -/
theorem gap_idempotence_witness :
    find_weather_gaps [0, 1, 2] 0 3 = [] ∧
    (0, 2).1 < (0, 2).2 ∧
    (runContinuity (runContinuity [2] 0 4).2 0 4).1 = 0 :=
  ⟨(gap_idempotence [0, 1, 2] 0 3).1 (fun h _ h2 => by interval_cases h <;> decide),
   (gap_idempotence [2] 0 4).2.1 (0, 2) (by decide),
   (gap_idempotence [2] 0 4).2.2.2.2⟩

/-! ### Concrete sample inputs used by witnesses -/

/-- A concrete physics context for witness evaluation. -/
def sampleCtx : PhysicsCtx :=
  ⟨fun x => x, fun x => x, fun _ => 1000, fun _ => 30, fun _ => 6, fun _ => 150, fun _ => 1⟩

/-- A concrete weather record for witness evaluation. -/
def sampleRec : WeatherRecord := ⟨3600, 500, 100, 200, 20, 3, 50⟩

/-- Concrete asset metadata for witness evaluation. -/
def sampleMeta : AssetMeta := ⟨51.83, 7.28, 9.92, 0⟩

/-- A concrete record history for witness evaluation: hourly records at 0,
3600, 7200. -/
def sampleHistory : List WeatherRecord :=
  [⟨0, 100, 10, 50, 10, 1, 40⟩, ⟨3600, 200, 20, 60, 11, 2, 41⟩,
   ⟨7200, 300, 30, 70, 12, 3, 42⟩]

/-- Witness for C2: dropping the record at 7200 does not change the feature
row at 3600. -/
theorem no_future_leakage_witness :
    featureRowAt sampleCtx
        (sampleHistory.filter (fun r => decide (r.timestamp ≤ 3600)))
        sampleMeta 7200 3600 =
      featureRowAt sampleCtx sampleHistory sampleMeta 7200 3600 :=
  (no_future_leakage sampleCtx sampleHistory sampleMeta 7200 3600).2.2.2

/-- Witness for C6: the hour feature of the sample record is the cyclical
sine value and the raw hour is absent from the feature names. -/
theorem cyclical_time_encoding_witness :
    List.lookup "hour_sin" (transform sampleCtx sampleRec sampleMeta 7200) =
      some (sampleCtx.sin2pi ((hourOf sampleRec.timestamp : ℚ) / 24)) ∧
    "hour" ∉ (transform sampleCtx sampleRec sampleMeta 7200).map Prod.fst :=
  ⟨(cyclical_time_encoding sampleCtx sampleRec sampleMeta 7200).1,
   (cyclical_time_encoding sampleCtx sampleRec sampleMeta 7200).2.2.2.2.2.2.2.1⟩

end PVForecast
